import Mathlib

/-!
Shallow embedding of the windowed transcription control loop of
`faster_whisper/transcribe.py` (class `WhisperModel`), together with the
leaf helpers it drives: the prompt builder (`get_prompt`), the temperature
fallback decoder (`generate_with_fallback`) and the per-window timestamp
parsing, no-speech gate, history bookkeeping and segment emission of
`generate_segments`.

Conventions of the embedding:
- token ids and frame indices are `ℤ` (Python ints);
- probabilities, scores, times and temperatures are `ℚ`
  (Python floats embedded as exact rationals);
- the neural decoder, the subword tokenizer and the compression scorer are
  opaque collaborators, passed in as function parameters;
- Python list indexing `l[i]` is embedded with `List.getD`/`headD`/`getLastD`
  (the claims below only evaluate them at in-range positions);
- `length_penalty` is embedded as a natural exponent (the source applies
  `seq_len ** length_penalty` with a float exponent; the default is `1`).
-/

namespace FasterWhisper

/-- Fixed ratio between feature frames and output timestamp units,
`self.input_stride = 2` (transcribe.py line 97). -/
def input_stride : ℤ := 2

/-- Seconds per timestamp unit, `self.time_precision = 0.02` (line 98). -/
def time_precision : ℚ := 0.02

/-- Maximum decoder output length, `self.max_length = 448` (line 99). -/
def max_length : ℕ := 448

/-- Opaque tokenizer capability: special token ids, the task/language control
sequence, and subword encode/decode (transcribe.py consumes exactly these). -/
structure Tokenizer where
  timestamp_begin : ℤ
  sot_prev : ℤ
  sot_sequence : List ℤ
  no_timestamps : ℤ
  encode : String → List ℤ
  decode : List ℤ → String

/-- One decoder result as returned by `self.model.generate(...)[0]`:
hypothesis token sequences, their scores, and the no-speech probability. -/
structure WhisperResult where
  sequences_ids : List (List ℤ)
  scores : List ℚ
  no_speech_prob : ℚ
  deriving DecidableEq

/-- The immutable option record (transcribe.py lines 26-48), field for field.
The Python field `prefix` is named `prefix_str` here. -/
structure TranscriptionOptions where
  beam_size : ℕ
  best_of : ℕ
  patience : ℚ
  length_penalty : ℕ
  log_prob_threshold : Option ℚ
  no_speech_threshold : Option ℚ
  compression_ratio_threshold : Option ℚ
  condition_on_previous_text : Bool
  temperatures : List ℚ
  initial_prompt : Option String
  prefix_str : Option String
  suppress_blank : Bool
  suppress_tokens : List ℤ
  without_timestamps : Bool
  max_initial_timestamp : ℚ

/-- Intermediate per-chunk record `dict(start=..., end=..., tokens=...)`
built while slicing a window result on timestamp boundaries (lines 311-313,
335-337). -/
structure RawSegment where
  start : ℚ
  «end» : ℚ
  tokens : List ℤ
  deriving DecidableEq

/-- Externally visible segment record (transcribe.py lines 16-17). -/
structure Segment where
  start : ℚ
  «end» : ℚ
  text : String
  deriving DecidableEq

/-- The two constants the loop reads from the feature extractor collaborator:
the window length in frames and the duration of one frame. -/
structure FeatureExtractor where
  nb_max_frames : ℤ
  time_per_frame : ℚ

/-- The mutable loop state of `generate_segments` (lines 227-229). -/
structure LoopState where
  seek : ℤ
  all_tokens : List ℤ
  prompt_reset_since : ℕ
  deriving DecidableEq

/-- The per-temperature keyword arguments passed to the opaque model call
(lines 369-380): sampling for positive temperature, beam search otherwise.
The remaining `model.generate` arguments (length penalty, max length,
suppression flags, max initial timestamp index) are constant across a
transcription and are folded into the opaque model function. -/
inductive DecodeKwargs where
  | sampling (beam_size num_hypotheses sampling_topk : ℕ) (sampling_temperature : ℚ)
  | beam (beam_size : ℕ) (patience : ℚ)

/-- Python `str.strip()` embedded over the character list: drop leading and
trailing whitespace. (Lean's `String.trim` is equivalent but is implemented
with byte-position loops that the kernel cannot evaluate, so the embedding
uses this list-level version.) -/
def pyStrip (s : String) : String :=
  ⟨((s.data.dropWhile Char.isWhitespace).reverse.dropWhile Char.isWhitespace).reverse⟩

/-- `WhisperModel.get_prompt` (lines 425-449): previous-text marker plus the
most recent context tokens, then the task/language control sequence, the
optional no-timestamps marker, and the optional encoded prefix truncated
from the end. -/
def get_prompt (tokenizer : Tokenizer) (previous_tokens : List ℤ)
    (without_timestamps : Bool) (prefix_str : Option String) : List ℤ :=
  (if previous_tokens ≠ [] then
      tokenizer.sot_prev ::
        previous_tokens.drop (previous_tokens.length - (max_length / 2 - 1))
    else []) ++
  tokenizer.sot_sequence ++
  (if without_timestamps then [tokenizer.no_timestamps] else []) ++
  (match prefix_str with
   | none => []
   | some p =>
     if p = "" then []
     else
       let prefix_tokens := tokenizer.encode (" " ++ pyStrip p)
       if prefix_tokens.length ≥ max_length / 2 then
         prefix_tokens.take (max_length / 2 - 1)
       else prefix_tokens)

example :
    get_prompt ⟨50, 1, [2, 3], 4, fun s => List.replicate s.length 7, fun _ => ""⟩
      [8, 9] true (some "ab") = [1, 8, 9, 2, 3, 4, 7, 7, 7] := by decide

/-- One decode attempt at a given temperature (transcribe.py lines 368-401):
choose the decoding keyword arguments from the temperature, invoke the opaque
model, and recover the average log probability from the returned score:
`cum_log_prob = scores[0] * seq_len ** length_penalty`,
`avg_log_prob = cum_log_prob / (seq_len + 1)`. -/
def decode_attempt (gen : DecodeKwargs → WhisperResult)
    (options : TranscriptionOptions) (temperature : ℚ) :
    WhisperResult × ℚ × ℚ :=
  let kwargs :=
    if temperature > 0 then
      DecodeKwargs.sampling 1 options.best_of 0 temperature
    else
      DecodeKwargs.beam options.beam_size options.patience
  let result := gen kwargs
  let tokens := result.sequences_ids.headD []
  let seq_len : ℚ := tokens.length
  let cum_log_prob := result.scores.headD 0 * seq_len ^ options.length_penalty
  let avg_log_prob := cum_log_prob / (seq_len + 1)
  (result, avg_log_prob, temperature)

/-- The quality gate of one attempt (lines 403-418): fallback is needed when
the compression ratio of the decoded text exceeds
`compression_ratio_threshold`, or the average log probability is below
`log_prob_threshold` (each test only when its threshold is configured).
`cratio` is the opaque compression scorer `get_compression_ratio`. -/
def attempt_needs_fallback (gen : DecodeKwargs → WhisperResult)
    (tokenizer : Tokenizer) (cratio : String → ℚ)
    (options : TranscriptionOptions) (temperature : ℚ) : Bool :=
  let att := decode_attempt gen options temperature
  let avg_log_prob := att.2.1
  let text := pyStrip (tokenizer.decode (att.1.sequences_ids.headD []))
  let compression_ratio := cratio text
  (match options.compression_ratio_threshold with
   | some threshold => decide (compression_ratio > threshold)
   | none => false) ||
  (match options.log_prob_threshold with
   | some threshold => decide (avg_log_prob < threshold)
   | none => false)

/-- `WhisperModel.generate_with_fallback` (lines 358-423): walk the
temperature ladder in order, return the first attempt whose quality gate
passes, and return the last attempt when the ladder is exhausted. An empty
ladder yields `none` (the Python code would fail on its `None` placeholders
there). -/
def generate_with_fallback (gen : DecodeKwargs → WhisperResult)
    (tokenizer : Tokenizer) (cratio : String → ℚ)
    (options : TranscriptionOptions) :
    List ℚ → Option (WhisperResult × ℚ × ℚ)
  | [] => none
  | temperature :: rest =>
    if attempt_needs_fallback gen tokenizer cratio options temperature = false
        ∨ rest = [] then
      some (decode_attempt gen options temperature)
    else
      generate_with_fallback gen tokenizer cratio options rest

/-- The no-speech gate decision (lines 256-265): skip when the no-speech
probability exceeds the threshold, unless a configured log-probability
threshold is exceeded by the average log probability. -/
def no_speech_should_skip (options : TranscriptionOptions)
    (no_speech_prob avg_log_prob : ℚ) : Bool :=
  match options.no_speech_threshold with
  | none => false
  | some threshold =>
    let should_skip := decide (no_speech_prob > threshold)
    match options.log_prob_threshold with
    | some log_threshold =>
      if avg_log_prob > log_threshold then false else should_skip
    | none => should_skip

/-- `single_timestamp_ending` (lines 276-280): the output has at least two
tokens, ends in a timestamp token, and the token before it is not a
timestamp token. -/
def single_timestamp_ending (timestamp_begin : ℤ) (tokens : List ℤ) : Bool :=
  decide (tokens.length ≥ 2) &&
    decide (tokens.getD (tokens.length - 2) 0 < timestamp_begin) &&
    decide (tokens.getD (tokens.length - 1) 0 ≥ timestamp_begin)

/-- `consecutive_timestamps` (lines 282-288): all indices `i > 0` where both
`tokens[i]` and `tokens[i-1]` are timestamp tokens. -/
def consecutive_timestamps (timestamp_begin : ℤ) (tokens : List ℤ) : List ℕ :=
  (List.range tokens.length).filter fun i =>
    decide (i > 0) && decide (tokens.getD i 0 ≥ timestamp_begin)
      && decide (tokens.getD (i - 1) 0 ≥ timestamp_begin)

/-- The slicing loop over boundary indices (lines 295-314): cut
`tokens[last_slice:current_slice]` at each slice point and read the chunk's
start and end time from its first and last token. -/
def slice_segments (time_offset : ℚ) (timestamp_begin : ℤ) (tokens : List ℤ) :
    (last_slice : ℕ) → List ℕ → List RawSegment
  | _, [] => []
  | last_slice, current_slice :: rest =>
    let sliced_tokens := (tokens.take current_slice).drop last_slice
    let start_timestamp_position := sliced_tokens.headD 0 - timestamp_begin
    let end_timestamp_position := sliced_tokens.getLastD 0 - timestamp_begin
    ⟨time_offset + (start_timestamp_position : ℚ) * time_precision,
     time_offset + (end_timestamp_position : ℚ) * time_precision,
     sliced_tokens⟩ ::
      slice_segments time_offset timestamp_begin tokens current_slice rest

/-- Timestamp parsing of one window result (lines 272-339): split the output
on consecutive-timestamp boundaries into `RawSegment`s and compute the next
seek position; without boundaries, build a single segment whose duration
comes from the last timestamp when it is a genuine (non-zero) one. -/
def parse_window_tokens (timestamp_begin : ℤ)
    (time_offset segment_duration : ℚ) (segment_size seek : ℤ)
    (tokens : List ℤ) : List RawSegment × ℤ :=
  let ste := single_timestamp_ending timestamp_begin tokens
  let cts := consecutive_timestamps timestamp_begin tokens
  if cts ≠ [] then
    let slices := cts ++ (if ste then [tokens.length] else [])
    let current_segments := slice_segments time_offset timestamp_begin tokens 0 slices
    if ste then
      (current_segments, seek + segment_size)
    else
      let last_slice := slices.getLastD 0
      let last_timestamp_position :=
        tokens.getD (last_slice - 1) 0 - timestamp_begin
      (current_segments, seek + last_timestamp_position * input_stride)
  else
    let timestamps := tokens.filter fun token => decide (token ≥ timestamp_begin)
    let duration :=
      if timestamps ≠ [] ∧ timestamps.getLastD 0 ≠ timestamp_begin then
        ((timestamps.getLastD 0 - timestamp_begin : ℤ) : ℚ) * time_precision
      else segment_duration
    ([⟨time_offset, time_offset + duration, tokens⟩], seek + segment_size)

/-- The emission loop over the window's `RawSegment`s (lines 344-356): every
segment's tokens are appended to the history; a `Segment` is yielded only
when the decoded text is non-empty after stripping. -/
def emit_segments (tokenizer : Tokenizer) (all_tokens : List ℤ) :
    List RawSegment → List ℤ × List Segment
  | [] => (all_tokens, [])
  | seg :: rest =>
    let next := emit_segments tokenizer (all_tokens ++ seg.tokens) rest
    let text := tokenizer.decode seg.tokens
    if pyStrip text = "" then next
    else (next.1, ⟨seg.start, seg.«end», text⟩ :: next.2)

/-- One iteration of the `while seek < content_frames` loop of
`generate_segments` (lines 236-356), as a state transformer: window
geometry, prompt construction, fallback decoding, the no-speech gate,
timestamp parsing, the prompt-reset policy, and segment emission.
`model_gen` is the opaque model invocation, parameterized by the window's
seek position, the prompt, and the per-temperature keyword arguments.
`none` models the Python failure on an empty temperature ladder. -/
def process_window (model_gen : ℤ → List ℤ → DecodeKwargs → WhisperResult)
    (feature_extractor : FeatureExtractor) (tokenizer : Tokenizer)
    (cratio : String → ℚ) (options : TranscriptionOptions)
    (content_frames : ℤ) (st : LoopState) :
    Option (LoopState × List Segment) :=
  let time_offset := (st.seek : ℚ) * feature_extractor.time_per_frame
  let segment_size := min feature_extractor.nb_max_frames (content_frames - st.seek)
  let segment_duration := (segment_size : ℚ) * feature_extractor.time_per_frame
  let previous_tokens := st.all_tokens.drop st.prompt_reset_since
  let prompt := get_prompt tokenizer previous_tokens
    options.without_timestamps options.prefix_str
  match generate_with_fallback (model_gen st.seek prompt) tokenizer cratio
      options options.temperatures with
  | none => none
  | some (result, avg_log_prob, temperature) =>
    if no_speech_should_skip options result.no_speech_prob avg_log_prob then
      some (⟨st.seek + segment_size, st.all_tokens, st.prompt_reset_since⟩, [])
    else
      let tokens := result.sequences_ids.headD []
      let parsed := parse_window_tokens tokenizer.timestamp_begin time_offset
        segment_duration segment_size st.seek tokens
      let prompt_reset_since :=
        if !options.condition_on_previous_text || decide (temperature > 0.5) then
          st.all_tokens.length
        else st.prompt_reset_since
      let emitted := emit_segments tokenizer st.all_tokens parsed.1
      some (⟨parsed.2, emitted.1, prompt_reset_since⟩, emitted.2)

/-- The loop-state initialization of `generate_segments` (lines 227-234):
seek starts at 0, the history starts empty except for the encoded initial
prompt (a space plus the stripped prompt text), and `prompt_reset_since`
starts at 0. -/
def initial_state (tokenizer : Tokenizer)
    (options : TranscriptionOptions) : LoopState :=
  let all_tokens : List ℤ := []
  match options.initial_prompt with
  | some p => ⟨0, all_tokens ++ tokenizer.encode (" " ++ pyStrip p), 0⟩
  | none => ⟨0, all_tokens, 0⟩

/-! Rational arithmetic in Lean's library is `@[irreducible]`, which blocks
`decide`/`rfl` evaluation of the embedding on closed inputs; restore the
default reducibility so closed windows evaluate inside proofs. -/
set_option allowUnsafeReducibility true in
attribute [semireducible] Rat.add Rat.mul Rat.div Rat.sub Rat.neg Rat.inv
  Rat.ofScientific

/-! Concrete collaborator instances used to evaluate the embedding on
closed inputs. -/

/-- A small concrete tokenizer: timestamp tokens start at 50, the control
tokens are 1-4, every string encodes to one 7 per character, and every token
list decodes to a fixed non-empty text. -/
def tkF : Tokenizer :=
  ⟨50, 1, [2, 3], 4, fun s => List.replicate s.length 7, fun _ => "hi"⟩

/-- A tokenizer whose decode is always whitespace (its segments are dropped). -/
def tkBlank : Tokenizer :=
  ⟨50, 1, [2, 3], 4, fun s => List.replicate s.length 7, fun _ => " "⟩

example :
    emit_segments tkBlank [9] [⟨0, 1, [5]⟩, ⟨1, 2, [6]⟩] = ([9, 5, 6], []) := by
  decide

/-- A constant compression scorer. -/
def crF : String → ℚ := fun _ => 1

/-- A window of 10 frames, one second per frame. -/
def feF : FeatureExtractor := ⟨10, 1⟩

/-- Default-like options: all quality thresholds off, a single temperature 0,
conditioning on previous text enabled. -/
def optsBase : TranscriptionOptions :=
  ⟨5, 5, 1, 1, none, none, none, true, [0], none, none, true, [-1], false, 1⟩

/-- Options with `condition_on_previous_text = False`. -/
def optsNoCond : TranscriptionOptions :=
  { optsBase with condition_on_previous_text := false }

/-- Options exercising the no-speech gate: `no_speech_threshold = 0.6`,
`log_prob_threshold = -0.1`. -/
def optsGate : TranscriptionOptions :=
  { optsBase with
    no_speech_threshold := some (3 / 5)
    log_prob_threshold := some (-1 / 10) }

/-- Options exercising the fallback ladder: `log_prob_threshold = -1`,
`compression_ratio_threshold = 2.4`, temperatures `[0, 1]`. -/
def optsLadder : TranscriptionOptions :=
  { optsBase with
    log_prob_threshold := some (-1)
    compression_ratio_threshold := some (24 / 10)
    temperatures := [0, 1] }

/-- A model producing the ordinary output `[5, 6]` (no timestamp tokens). -/
def genPlain : ℤ → List ℤ → DecodeKwargs → WhisperResult :=
  fun _ _ _ => ⟨[[5, 6]], [0], 0⟩

/-- A model producing `[50, 50, 3]`: a consecutive timestamp pair at the
timestamp-begin token itself, so the window advances seek by zero. -/
def genStuck : ℤ → List ℤ → DecodeKwargs → WhisperResult :=
  fun _ _ _ => ⟨[[50, 50, 3]], [0], 0⟩

/-- A model producing `[55, 0, 50]`: a genuine timestamp 55 first, but the
last timestamp token is exactly the threshold 50. -/
def genLastZero : ℤ → List ℤ → DecodeKwargs → WhisperResult :=
  fun _ _ _ => ⟨[[55, 0, 50]], [0], 0⟩

/-- A model whose single-token output scores -2/5, with no-speech
probability 0.9. -/
def genQuiet : ℤ → List ℤ → DecodeKwargs → WhisperResult :=
  fun _ _ _ => ⟨[[7]], [-2 / 5], 9 / 10⟩

/-- A model whose beam attempt (temperature 0) scores -10 and whose sampling
attempt (positive temperature) scores -1/10. -/
def genLadder : DecodeKwargs → WhisperResult := fun kwargs =>
  match kwargs with
  | DecodeKwargs.beam _ _ => ⟨[[7]], [-10], 0⟩
  | DecodeKwargs.sampling _ _ _ _ => ⟨[[7]], [-1 / 10], 0⟩

/-- The spec's synthetic timestamp-parsing example, with timestamp tokens at
1.0s, 2.0s (as a consecutive pair) and a closing 3.0s: token value 50 + t/0.02. -/
def tokensSpecExample : List ℤ := [100, 7, 8, 150, 150, 9, 200]

/-- Options with an initial prompt. -/
def optsInit : TranscriptionOptions :=
  { optsBase with initial_prompt := some "hello" }

/-! Helper lemmas. -/

/-- The last element (with default) of a non-empty list is a member. -/
theorem getLastD_mem_of_ne_nil {α : Type} (l : List α) (d : α) (h : l ≠ []) :
    l.getLastD d ∈ l := by
  cases l with
  | nil => exact absurd rfl h
  | cons a t =>
    rw [show (a :: t).getLastD d = (a :: t).getLast (by simp) from by
      simp [List.getLastD_eq_getLast?, List.getLast?_eq_getLast]]
    exact List.getLast_mem _

/-- On a non-empty list, `getLastD` does not depend on the default. -/
theorem getLastD_of_ne_nil {α : Type} (l : List α) (d e : α) (h : l ≠ []) :
    l.getLastD d = l.getLastD e := by
  cases l with
  | nil => exact absurd rfl h
  | cons a t => simp [List.getLastD_eq_getLast?, List.getLast?_eq_getLast]

/-- Membership in `consecutive_timestamps`: the index is positive and in
range, and it and its predecessor hold timestamp tokens. -/
theorem mem_consecutive_timestamps (timestamp_begin : ℤ) (tokens : List ℤ)
    (i : ℕ) (h : i ∈ consecutive_timestamps timestamp_begin tokens) :
    0 < i ∧ i < tokens.length ∧ timestamp_begin ≤ tokens.getD i 0 ∧
      timestamp_begin ≤ tokens.getD (i - 1) 0 := by
  simp only [consecutive_timestamps, List.mem_filter, List.mem_range] at h
  obtain ⟨h1, h2⟩ := h
  simp only [Bool.and_eq_true, decide_eq_true_eq] at h2
  exact ⟨h2.1.1, h1, h2.1.2, h2.2⟩

/-- Closed form of the slicing loop: the chunks are the slices between
successive boundary indices (the running `last_slice` prepended). -/
theorem slice_segments_zip (time_offset : ℚ) (timestamp_begin : ℤ)
    (tokens : List ℤ) (slices : List ℕ) :
    ∀ last_slice : ℕ,
      slice_segments time_offset timestamp_begin tokens last_slice slices =
        ((last_slice :: slices).zip slices).map fun p =>
          let chunk := (tokens.take p.2).drop p.1
          ⟨time_offset + ((chunk.headD 0 - timestamp_begin : ℤ) : ℚ) * time_precision,
           time_offset + ((chunk.getLastD 0 - timestamp_begin : ℤ) : ℚ) * time_precision,
           chunk⟩ := by
  induction slices with
  | nil => intro last_slice; simp [slice_segments]
  | cons c rest ih =>
    intro last_slice
    simp only [slice_segments, List.zip_cons_cons, List.map_cons, ih c]

/-- The seek advance of `parse_window_tokens` is non-negative, and it is zero
only in the consecutive-timestamp branch without a single-timestamp ending,
when the token before the last boundary is exactly `timestamp_begin`. -/
theorem parse_window_tokens_seek_le (timestamp_begin : ℤ)
    (time_offset segment_duration : ℚ) (segment_size seek : ℤ)
    (tokens : List ℤ) (hsize : 1 ≤ segment_size) :
    seek ≤ (parse_window_tokens timestamp_begin time_offset segment_duration
        segment_size seek tokens).2 ∧
      ((parse_window_tokens timestamp_begin time_offset segment_duration
          segment_size seek tokens).2 = seek →
        consecutive_timestamps timestamp_begin tokens ≠ [] ∧
          single_timestamp_ending timestamp_begin tokens = false ∧
          tokens.getD
              ((consecutive_timestamps timestamp_begin tokens).getLastD 0 - 1) 0 =
            timestamp_begin) := by
  simp only [parse_window_tokens]
  by_cases hc : consecutive_timestamps timestamp_begin tokens = []
  · rw [if_neg (not_not_intro hc)]
    exact ⟨by omega, fun h => absurd h (by omega)⟩
  · rw [if_pos hc]
    by_cases hs : single_timestamp_ending timestamp_begin tokens
    · rw [if_pos hs]
      exact ⟨by omega, fun h => absurd h (by omega)⟩
    · simp only [if_neg hs, List.append_nil]
      obtain ⟨-, -, -, h4⟩ := mem_consecutive_timestamps timestamp_begin tokens
        ((consecutive_timestamps timestamp_begin tokens).getLastD 0)
        (getLastD_mem_of_ne_nil _ 0 hc)
      simp only [input_stride]
      exact ⟨by omega, fun h =>
        ⟨hc, Bool.eq_false_iff.mpr hs, by omega⟩⟩

/-! Claim theorems. -/

/-- Claim C9: each RawSegment of a window, in chunk order, has its tokens
appended to the history unconditionally, and yields a Segment with its start
time, end time and decoded text exactly when the decoded text is non-empty
after stripping whitespace. -/
theorem emit_segments_spec (tokenizer : Tokenizer) (all_tokens : List ℤ)
    (segs : List RawSegment) :
    emit_segments tokenizer all_tokens segs =
      (all_tokens ++ (segs.map RawSegment.tokens).flatten,
       segs.filterMap fun seg =>
         if pyStrip (tokenizer.decode seg.tokens) = "" then none
         else some ⟨seg.start, seg.«end», tokenizer.decode seg.tokens⟩) := by
  induction segs generalizing all_tokens with
  | nil => simp [emit_segments]
  | cons seg rest ih =>
    simp only [emit_segments, ih, List.map_cons, List.flatten_cons,
      List.filterMap_cons]
    by_cases h : pyStrip (tokenizer.decode seg.tokens) = "" <;>
      simp [h, List.append_assoc]

/-- Claim C10: a supplied initial prompt is stripped, prefixed with one
space, encoded, and placed in `all_tokens` before the first window, while
`prompt_reset_since` stays 0, so the initial-prompt tokens are part of the
first window's previous-text context `all_tokens[prompt_reset_since:]`. -/
theorem initial_prompt_in_history (tokenizer : Tokenizer)
    (options : TranscriptionOptions) (p : String)
    (h : options.initial_prompt = some p) :
    (initial_state tokenizer options).all_tokens =
        tokenizer.encode (" " ++ pyStrip p) ∧
      (initial_state tokenizer options).seek = 0 ∧
      (initial_state tokenizer options).prompt_reset_since = 0 ∧
      (initial_state tokenizer options).all_tokens.drop
          (initial_state tokenizer options).prompt_reset_since =
        tokenizer.encode (" " ++ pyStrip p) := by
  simp [initial_state, h]

/-- Witness for C10 at a concrete tokenizer and options. -/
theorem initial_prompt_in_history_witness :
    (initial_state tkF optsInit).all_tokens = [7, 7, 7, 7, 7, 7] ∧
      (initial_state tkF optsInit).seek = 0 ∧
      (initial_state tkF optsInit).prompt_reset_since = 0 ∧
      (initial_state tkF optsInit).all_tokens.drop
          (initial_state tkF optsInit).prompt_reset_since =
        [7, 7, 7, 7, 7, 7] := by
  obtain ⟨h1, h2, h3, h4⟩ := initial_prompt_in_history tkF optsInit "hello" rfl
  exact ⟨h1.trans (by decide), h2, h3, h4.trans (by decide)⟩

/-- Claim C8: with non-empty previous context and a non-empty prefix, the
prompt is the previous-text marker, then at most `max_length / 2 - 1` of the
most recent context tokens (a suffix of the context), then the task/language
control sequence, then the optional no-timestamps marker, then at most
`max_length / 2 - 1` tokens of the encoded stripped prefix truncated from
the end (a prefix of the encoding). -/
theorem get_prompt_structure (tokenizer : Tokenizer)
    (previous_tokens : List ℤ) (without_timestamps : Bool) (p : String)
    (hprev : previous_tokens ≠ []) (hp : p ≠ "") :
    get_prompt tokenizer previous_tokens without_timestamps (some p) =
      (tokenizer.sot_prev ::
          previous_tokens.drop
            (previous_tokens.length - (max_length / 2 - 1))) ++
        tokenizer.sot_sequence ++
        (if without_timestamps then [tokenizer.no_timestamps] else []) ++
        (if (tokenizer.encode (" " ++ pyStrip p)).length ≥ max_length / 2 then
          (tokenizer.encode (" " ++ pyStrip p)).take (max_length / 2 - 1)
        else tokenizer.encode (" " ++ pyStrip p)) ∧
      (previous_tokens.drop
          (previous_tokens.length - (max_length / 2 - 1))).length ≤
        max_length / 2 - 1 ∧
      previous_tokens.drop (previous_tokens.length - (max_length / 2 - 1))
          <:+ previous_tokens ∧
      (if (tokenizer.encode (" " ++ pyStrip p)).length ≥ max_length / 2 then
          (tokenizer.encode (" " ++ pyStrip p)).take (max_length / 2 - 1)
        else tokenizer.encode (" " ++ pyStrip p)).length ≤
        max_length / 2 - 1 ∧
      (if (tokenizer.encode (" " ++ pyStrip p)).length ≥ max_length / 2 then
          (tokenizer.encode (" " ++ pyStrip p)).take (max_length / 2 - 1)
        else tokenizer.encode (" " ++ pyStrip p))
          <+: tokenizer.encode (" " ++ pyStrip p) := by
  refine ⟨by simp [get_prompt, hprev, hp], ?_, List.drop_suffix _ _, ?_, ?_⟩
  · simp only [List.length_drop, max_length]
    omega
  · by_cases h : (tokenizer.encode (" " ++ pyStrip p)).length ≥ max_length / 2
    · rw [if_pos h]
      simp only [List.length_take, max_length]
      omega
    · rw [if_neg h]
      simp only [max_length] at h ⊢
      omega
  · by_cases h : (tokenizer.encode (" " ++ pyStrip p)).length ≥ max_length / 2
    · simpa [h] using List.take_prefix (max_length / 2 - 1)
        (tokenizer.encode (" " ++ pyStrip p))
    · simp [h]

set_option maxRecDepth 4000 in
/-- Witness for C8: a 300-token context is truncated to its last 223 tokens
and a short prefix is kept whole. -/
theorem get_prompt_structure_witness :
    get_prompt tkF (List.replicate 300 9) false (some "ab") =
      (1 :: (List.replicate 300 (9 : ℤ)).drop 77) ++ [2, 3] ++ [] ++
        [7, 7, 7] ∧
      ((List.replicate 300 (9 : ℤ)).drop 77).length ≤ 223 ∧
      (List.replicate 300 (9 : ℤ)).drop 77 <:+ List.replicate 300 9 ∧
      ([7, 7, 7] : List ℤ).length ≤ 223 ∧
      ([7, 7, 7] : List ℤ) <+: [7, 7, 7] :=
  get_prompt_structure tkF (List.replicate 300 9) false "ab"
    (by decide) (by decide)

/-- Claim C3 (amended): with no consecutive-timestamp boundary, exactly one
RawSegment is produced, spanning `time_offset` to `time_offset + duration`,
where `duration` is `segment_duration` unless the output contains timestamp
tokens and the last of them is not exactly `timestamp_begin`, in which case
it is that last timestamp's offset scaled by `time_precision`; seek advances
by `segment_size` regardless of the tokens. -/
theorem no_boundary_single_segment (timestamp_begin : ℤ)
    (time_offset segment_duration : ℚ) (segment_size seek : ℤ)
    (tokens : List ℤ)
    (h : consecutive_timestamps timestamp_begin tokens = []) :
    parse_window_tokens timestamp_begin time_offset segment_duration
        segment_size seek tokens =
      ([⟨time_offset,
          time_offset +
            (if (tokens.filter fun token => decide (token ≥ timestamp_begin))
                  ≠ [] ∧
                (tokens.filter fun token =>
                    decide (token ≥ timestamp_begin)).getLastD 0 ≠
                  timestamp_begin then
              (((tokens.filter fun token =>
                    decide (token ≥ timestamp_begin)).getLastD 0 -
                  timestamp_begin : ℤ) : ℚ) * time_precision
            else segment_duration),
          tokens⟩],
        seek + segment_size) := by
  simp only [parse_window_tokens]
  rw [if_neg (not_not_intro h)]

/-- Witness for C3's amended theorem on a window with no timestamp tokens. -/
theorem no_boundary_single_segment_witness :
    parse_window_tokens 50 0 10 10 0 [5, 6] = ([⟨0, 0 + 10, [5, 6]⟩], 0 + 10) :=
  (no_boundary_single_segment 50 0 10 10 0 [5, 6] (by decide)).trans rfl

/-- Counterexample for C3 as stated: `[55, 0, 50]` has no
consecutive-timestamp boundary and contains the genuine timestamp token 55
(not equal to the threshold 50), yet the emitted duration is
`segment_duration` (10), not the claimed `(55 - 50) * time_precision`,
because the code tests only the last timestamp token. -/
theorem no_boundary_duration_cex :
    consecutive_timestamps 50 [55, 0, 50] = [] ∧
      (([55, 0, 50] : List ℤ).filter fun token =>
        decide (token ≥ 50 ∧ token ≠ 50)) ≠ [] ∧
      (parse_window_tokens 50 0 10 10 0 [55, 0, 50]).1 =
        [⟨0, 0 + 10, [55, 0, 50]⟩] ∧
      (0 + 10 : ℚ) ≠ 0 + ((55 - 50 : ℤ) : ℚ) * time_precision := by decide

/-- Claim C6: with at least one consecutive-timestamp boundary, the token
sequence is cut at every boundary (plus the end of the sequence on a
single-timestamp ending), and one RawSegment is emitted per chunk, whose
start and end times are the chunk's first and last token offsets from
`timestamp_begin`, scaled by `time_precision` and added to `time_offset`. -/
theorem consecutive_slicing_spec (timestamp_begin : ℤ)
    (time_offset segment_duration : ℚ) (segment_size seek : ℤ)
    (tokens : List ℤ)
    (h : consecutive_timestamps timestamp_begin tokens ≠ []) :
    (parse_window_tokens timestamp_begin time_offset segment_duration
        segment_size seek tokens).1 =
      ((0 :: (consecutive_timestamps timestamp_begin tokens ++
            (if single_timestamp_ending timestamp_begin tokens then
              [tokens.length] else []))).zip
          (consecutive_timestamps timestamp_begin tokens ++
            (if single_timestamp_ending timestamp_begin tokens then
              [tokens.length] else []))).map fun p =>
        let chunk := (tokens.take p.2).drop p.1
        ⟨time_offset + ((chunk.headD 0 - timestamp_begin : ℤ) : ℚ) *
            time_precision,
         time_offset + ((chunk.getLastD 0 - timestamp_begin : ℤ) : ℚ) *
            time_precision,
         chunk⟩ := by
  simp only [parse_window_tokens]
  rw [if_pos h]
  by_cases hs : single_timestamp_ending timestamp_begin tokens
  · rw [if_pos hs]
    exact slice_segments_zip _ _ _ _ 0
  · simp only [if_neg hs]
    exact slice_segments_zip _ _ _ _ 0

/-- Witness for C6: the spec's synthetic example (consecutive pair at 2.0s,
opening timestamp 1.0s, closing single timestamp 3.0s) yields exactly the
two RawSegments [1.0, 2.0) and [2.0, 3.0). -/
theorem consecutive_slicing_spec_witness :
    (parse_window_tokens 50 0 30 3000 0 tokensSpecExample).1 =
      [⟨1, 2, [100, 7, 8, 150]⟩, ⟨2, 3, [150, 9, 200]⟩] :=
  (consecutive_slicing_spec 50 0 30 3000 0 tokensSpecExample
    (by decide)).trans (by decide)

/-- Claim C2 (code bug): with `condition_on_previous_text = false` the code
sets `prompt_reset_since = len(all_tokens)` before appending the window's
output, so the next window's previous-text context
`all_tokens[prompt_reset_since:]` is exactly this window's (non-empty)
output: the current window's tokens ARE used as context for the next
window, contradicting the claim and the option's documentation. -/
theorem prompt_reset_includes_current_window :
    process_window genPlain feF tkF crF optsNoCond 100 ⟨0, [9], 0⟩ =
      some (⟨10, [9, 5, 6], 1⟩, [⟨0, 10, "hi"⟩]) ∧
      ([9, 5, 6] : List ℤ).drop 1 = [5, 6] ∧
      ([5, 6] : List ℤ) ≠ [] := by decide

/-- Claim C4: with a configured no-speech threshold, the skip decision is
exactly "no-speech probability exceeds the threshold, and no configured
log-probability threshold is exceeded by the average log probability"; a
skipped window advances seek by `segment_size` and leaves the history, the
prompt-reset index and the emitted segments untouched. -/
theorem no_speech_gate_spec
    (model_gen : ℤ → List ℤ → DecodeKwargs → WhisperResult)
    (feature_extractor : FeatureExtractor) (tokenizer : Tokenizer)
    (cratio : String → ℚ) (options : TranscriptionOptions)
    (content_frames : ℤ) (st : LoopState) (result : WhisperResult)
    (avg_log_prob temperature nst : ℚ)
    (hns : options.no_speech_threshold = some nst)
    (hgen : generate_with_fallback
        (model_gen st.seek (get_prompt tokenizer
          (st.all_tokens.drop st.prompt_reset_since)
          options.without_timestamps options.prefix_str))
        tokenizer cratio options options.temperatures =
      some (result, avg_log_prob, temperature)) :
    no_speech_should_skip options result.no_speech_prob avg_log_prob =
      (decide (result.no_speech_prob > nst) &&
        !(options.log_prob_threshold.isSome &&
          decide (avg_log_prob > options.log_prob_threshold.getD 0))) ∧
    (no_speech_should_skip options result.no_speech_prob avg_log_prob =
        true →
      process_window model_gen feature_extractor tokenizer cratio options
          content_frames st =
        some (⟨st.seek +
            min feature_extractor.nb_max_frames (content_frames - st.seek),
          st.all_tokens, st.prompt_reset_since⟩, [])) := by
  constructor
  · simp only [no_speech_should_skip, hns]
    cases hl : options.log_prob_threshold with
    | none => simp
    | some l =>
      by_cases hgt : avg_log_prob > l
      · simp [hgt]
      · simp [hgt]
  · intro hskip
    simp only [process_window]
    rw [hgen]
    simp [hskip]

/-- Witness for C4: a window whose single decode attempt has no-speech
probability 0.9 (above the 0.6 threshold) and average log probability -0.2
(below the -0.1 override threshold) is skipped: seek advances by the window
size and nothing else changes. -/
theorem no_speech_gate_spec_witness :
    process_window genQuiet feF tkF crF optsGate 100 ⟨0, [9], 2⟩ =
      some (⟨10, [9], 2⟩, []) :=
  ((no_speech_gate_spec genQuiet feF tkF crF optsGate 100 ⟨0, [9], 2⟩
      ⟨[[7]], [-2 / 5], 9 / 10⟩ (-1 / 5) 0 (3 / 5) rfl (by decide)).2
    (by decide)).trans (by decide)

/-- The fallback ladder returns the first attempt whose gate passes, and the
last attempt when every gate fails (helper for the C5 theorem). -/
theorem generate_with_fallback_eq_find (gen : DecodeKwargs → WhisperResult)
    (tokenizer : Tokenizer) (cratio : String → ℚ)
    (options : TranscriptionOptions) :
    ∀ temperatures : List ℚ, temperatures ≠ [] →
      generate_with_fallback gen tokenizer cratio options temperatures =
        some (decode_attempt gen options
          ((temperatures.find? fun u =>
              !attempt_needs_fallback gen tokenizer cratio options u).getD
            (temperatures.getLastD 0)))
  | [], h => absurd rfl h
  | a :: rest, _ => by
    by_cases na : attempt_needs_fallback gen tokenizer cratio options a = false
    · have hp : (!attempt_needs_fallback gen tokenizer cratio options a) = true := by
        simp [na]
      rw [generate_with_fallback, if_pos (Or.inl na),
        @List.find?_cons_of_pos ℚ
          (fun u => !attempt_needs_fallback gen tokenizer cratio options u)
          a rest hp]
      rfl
    · have na' : attempt_needs_fallback gen tokenizer cratio options a = true := by
        revert na
        cases attempt_needs_fallback gen tokenizer cratio options a <;> simp
      have hp : ¬((!attempt_needs_fallback gen tokenizer cratio options a) = true) := by
        simp [na']
      match rest with
      | [] =>
        rw [generate_with_fallback, if_pos (Or.inr rfl),
          @List.find?_cons_of_neg ℚ
            (fun u => !attempt_needs_fallback gen tokenizer cratio options u)
            a [] hp]
        rfl
      | b :: rest2 =>
        have hne : (b :: rest2 : List ℚ) ≠ [] := by simp
        rw [generate_with_fallback, if_neg (by simp [na']),
          generate_with_fallback_eq_find gen tokenizer cratio options
            (b :: rest2) hne,
          @List.find?_cons_of_neg ℚ
            (fun u => !attempt_needs_fallback gen tokenizer cratio options u)
            a (b :: rest2) hp,
          @List.getLastD_cons ℚ 0 a (b :: rest2),
          getLastD_of_ne_nil (b :: rest2) a 0 hne]

/-- Claim C5: the fallback decoder walks the temperatures in order and
returns the first attempt passing the quality gate, or the last attempt when
all fail; and an attempt needs fallback exactly when a configured
compression-ratio threshold is exceeded or the average log probability falls
below a configured log-probability threshold. -/
theorem generate_with_fallback_first_pass (gen : DecodeKwargs → WhisperResult)
    (tokenizer : Tokenizer) (cratio : String → ℚ)
    (options : TranscriptionOptions) (temperatures : List ℚ) (t : ℚ)
    (h : temperatures ≠ []) :
    generate_with_fallback gen tokenizer cratio options temperatures =
      some (decode_attempt gen options
        ((temperatures.find? fun u =>
            !attempt_needs_fallback gen tokenizer cratio options u).getD
          (temperatures.getLastD 0))) ∧
    attempt_needs_fallback gen tokenizer cratio options t =
      ((options.compression_ratio_threshold.isSome &&
          decide (cratio (pyStrip (tokenizer.decode
              ((decode_attempt gen options t).1.sequences_ids.headD []))) >
            options.compression_ratio_threshold.getD 0)) ||
        (options.log_prob_threshold.isSome &&
          decide ((decode_attempt gen options t).2.1 <
            options.log_prob_threshold.getD 0))) := by
  refine ⟨generate_with_fallback_eq_find gen tokenizer cratio options
    temperatures h, ?_⟩
  simp only [attempt_needs_fallback]
  cases hc : options.compression_ratio_threshold <;>
    cases hl : options.log_prob_threshold <;> simp

/-- Witness for C5: on the ladder [0, 1] whose first attempt scores too low
and whose second passes, the second attempt (temperature 1) is returned, and
the first attempt's gate reports fallback. -/
theorem generate_with_fallback_first_pass_witness :
    generate_with_fallback genLadder tkF crF optsLadder [0, 1] =
      some (⟨[[7]], [-1 / 10], 0⟩, -1 / 20, 1) ∧
    attempt_needs_fallback genLadder tkF crF optsLadder 0 = true := by
  obtain ⟨h1, h2⟩ := generate_with_fallback_first_pass genLadder tkF crF
    optsLadder [0, 1] 0 (by decide)
  exact ⟨h1.trans (by decide), h2.trans (by decide)⟩

/-- Claim C7: whenever the fallback decoder returns a triple, the returned
average log probability is the returned result's first score times the
selected hypothesis length raised to `length_penalty`, divided by the
hypothesis length plus one. -/
theorem avg_log_prob_formula (gen : DecodeKwargs → WhisperResult)
    (tokenizer : Tokenizer) (cratio : String → ℚ)
    (options : TranscriptionOptions) :
    ∀ (temperatures : List ℚ) (result : WhisperResult)
      (avg_log_prob temperature : ℚ),
      generate_with_fallback gen tokenizer cratio options temperatures =
        some (result, avg_log_prob, temperature) →
      avg_log_prob =
        result.scores.headD 0 *
            ((result.sequences_ids.headD []).length : ℚ) ^
              options.length_penalty /
          (((result.sequences_ids.headD []).length : ℚ) + 1)
  | [], result, avg_log_prob, temperature, h => by
    simp [generate_with_fallback] at h
  | a :: rest, result, avg_log_prob, temperature, h => by
    rw [generate_with_fallback] at h
    by_cases hc : attempt_needs_fallback gen tokenizer cratio options a =
        false ∨ rest = []
    · rw [if_pos hc] at h
      simp only [decode_attempt, Option.some.injEq, Prod.mk.injEq] at h
      obtain ⟨h1, h2, h3⟩ := h
      subst h1
      exact h2.symm
    · rw [if_neg hc] at h
      exact avg_log_prob_formula gen tokenizer cratio options rest result
        avg_log_prob temperature h

/-- Witness for C7: the ladder fixture returns average log probability
-1/20, which is the returned score -1/10 times 1^1 over 2. -/
theorem avg_log_prob_formula_witness :
    (-1 / 20 : ℚ) =
      (⟨[[7]], [-1 / 10], 0⟩ : WhisperResult).scores.headD 0 *
          (((⟨[[7]], [-1 / 10], 0⟩ : WhisperResult).sequences_ids.headD
            []).length : ℚ) ^ optsLadder.length_penalty /
        ((((⟨[[7]], [-1 / 10], 0⟩ : WhisperResult).sequences_ids.headD
            []).length : ℚ) + 1) :=
  avg_log_prob_formula genLadder tkF crF optsLadder [0, 1]
    ⟨[[7]], [-1 / 10], 0⟩ (-1 / 20) 1 (by decide)

/-- Claim C1 (amended): over one loop iteration, seek never decreases; an
iteration that leaves seek unchanged is necessarily a consecutive-timestamp
window without a single-timestamp ending whose last boundary's preceding
token is exactly `timestamp_begin` (so the advance
`last_timestamp_position * input_stride` is zero there, and only there). -/
theorem process_window_seek_monotone
    (model_gen : ℤ → List ℤ → DecodeKwargs → WhisperResult)
    (feature_extractor : FeatureExtractor) (tokenizer : Tokenizer)
    (cratio : String → ℚ) (options : TranscriptionOptions)
    (content_frames : ℤ) (st st' : LoopState) (segs : List Segment)
    (result : WhisperResult) (avg_log_prob temperature : ℚ)
    (hframes : 1 ≤ feature_extractor.nb_max_frames)
    (hseek : st.seek < content_frames)
    (hgen : generate_with_fallback
        (model_gen st.seek (get_prompt tokenizer
          (st.all_tokens.drop st.prompt_reset_since)
          options.without_timestamps options.prefix_str))
        tokenizer cratio options options.temperatures =
      some (result, avg_log_prob, temperature))
    (hstep : process_window model_gen feature_extractor tokenizer cratio
        options content_frames st = some (st', segs)) :
    st.seek ≤ st'.seek ∧
      (st'.seek = st.seek →
        consecutive_timestamps tokenizer.timestamp_begin
            (result.sequences_ids.headD []) ≠ [] ∧
          single_timestamp_ending tokenizer.timestamp_begin
              (result.sequences_ids.headD []) = false ∧
          (result.sequences_ids.headD []).getD
              ((consecutive_timestamps tokenizer.timestamp_begin
                (result.sequences_ids.headD [])).getLastD 0 - 1) 0 =
            tokenizer.timestamp_begin) := by
  have hsize : 1 ≤ min feature_extractor.nb_max_frames
      (content_frames - st.seek) := le_min hframes (by omega)
  simp only [process_window] at hstep
  rw [hgen] at hstep
  dsimp only at hstep
  by_cases hskip : no_speech_should_skip options result.no_speech_prob
      avg_log_prob = true
  · rw [if_pos hskip] at hstep
    have hp := Option.some.inj hstep
    have hseek' : st.seek +
        min feature_extractor.nb_max_frames (content_frames - st.seek) =
        st'.seek := congrArg (fun q => q.1.seek) hp
    exact ⟨by omega, fun he => absurd he (by omega)⟩
  · rw [if_neg hskip] at hstep
    have hp := Option.some.inj hstep
    have hseek' :
        (parse_window_tokens tokenizer.timestamp_begin
          ((st.seek : ℚ) * feature_extractor.time_per_frame)
          (((min feature_extractor.nb_max_frames (content_frames - st.seek) :
              ℤ) : ℚ) * feature_extractor.time_per_frame)
          (min feature_extractor.nb_max_frames (content_frames - st.seek))
          st.seek (result.sequences_ids.headD [])).2 = st'.seek :=
      congrArg (fun q => q.1.seek) hp
    obtain ⟨hle, hch⟩ := parse_window_tokens_seek_le tokenizer.timestamp_begin
      ((st.seek : ℚ) * feature_extractor.time_per_frame)
      (((min feature_extractor.nb_max_frames (content_frames - st.seek) :
          ℤ) : ℚ) * feature_extractor.time_per_frame)
      (min feature_extractor.nb_max_frames (content_frames - st.seek))
      st.seek (result.sequences_ids.headD []) hsize
    refine ⟨hseek' ▸ hle, fun he => hch ?_⟩
    rw [hseek']
    exact he

/-- Witness for C1's amended theorem on an ordinary advancing window. -/
theorem process_window_seek_monotone_witness :
    (0 : ℤ) ≤ (10 : ℤ) ∧
      ((10 : ℤ) = (0 : ℤ) →
        consecutive_timestamps 50 [5, 6] ≠ [] ∧
          single_timestamp_ending 50 [5, 6] = false ∧
          ([5, 6] : List ℤ).getD
              ((consecutive_timestamps 50 [5, 6]).getLastD 0 - 1) 0 = 50) :=
  process_window_seek_monotone genPlain feF tkF crF optsBase 100
    ⟨0, [], 0⟩ ⟨10, [5, 6], 0⟩ [⟨0, 10, "hi"⟩] ⟨[[5, 6]], [0], 0⟩ 0 0
    (by decide) (by decide) (by decide) (by decide)

/-- Counterexample for C1 as stated: the window output `[50, 50, 3]` (a
consecutive timestamp pair at the timestamp-begin token, no single-timestamp
ending) is not a no-speech skip, yet seek stays at 0 with
`content_frames = 100` still ahead: the advance
`last_timestamp_position * input_stride` is zero, not strictly positive, and
the loop would never terminate on this decoder output. -/
theorem seek_zero_advance_cex :
    process_window genStuck feF tkF crF optsBase 100 ⟨0, [], 0⟩ =
      some (⟨0, [50], 0⟩, [⟨0, 0, "hi"⟩]) ∧
      no_speech_should_skip optsBase 0 0 = false ∧
      ((0 : ℤ) < 100) ∧
      (50 - 50 : ℤ) * input_stride = 0 := by decide

end FasterWhisper
